import Mathlib

/-!
Verification of the jarvis-assistant voice-assistant core.

Each definition below is a shallow embedding of a function of the
TypeScript source (`apps/server/src`), translated clause by clause:

* `Jarvis.Synth`     — `speech/synthesizer.ts` (provider selection, speak,
  rate translation),
* `Jarvis.Orchestr`  — `speech/index.ts` `AssistantService` (state machine),
* `Jarvis.Wake`      — `audio/wakeWord.ts` (variations, similarity,
  confidence),
* `Jarvis.Rec`       — `audio/recorder.ts` (start, sound detection,
  silence ticks),
* `Jarvis.Mem`       — `brain/memory.ts` (append and trim),
* `Jarvis.Cmd`       — `commands/index.ts` and `commands/system.ts`
  (pattern matching, entity extraction, the set-volume command).

JavaScript numbers are modelled as `ℚ` (the claims involve only exact
arithmetic), times as `Nat` milliseconds, and fallible calls as `Except`
or an explicit outcome parameter.
-/

namespace Jarvis

/-- JS `haystack.includes(needle)`: `needle` occurs as a contiguous
substring of `haystack`. -/
def jsIncludes : List Char → List Char → Bool
  | hay, sub =>
    sub.isPrefixOf hay ||
      match hay with
      | [] => false
      | _ :: t => jsIncludes t sub

/-- JS `Math.round`: round half away from zero toward +∞, which is
`⌊x + 1/2⌋` (`Math.round(-0.5) = 0` as well). -/
def jsMathRound (x : ℚ) : ℤ := ⌊x + 1 / 2⌋

/-- JS `String.prototype.toLowerCase` on one character (the embedded
inputs are ASCII). -/
def jsLowerChar (c : Char) : Char :=
  if 'A' ≤ c ∧ c ≤ 'Z' then Char.ofNat (c.toNat + 32) else c

/-- JS `String.prototype.toLowerCase`. -/
def jsToLowerChars (l : List Char) : List Char := l.map jsLowerChar

/-- The whitespace JS `String.prototype.trim` strips (ASCII part). -/
def jsIsWhitespace (c : Char) : Bool :=
  c = ' ' || c = '\t' || c = '\n' || c = '\r' || c = '\x0b' || c = '\x0c'

/-- JS `String.prototype.trim`: strip leading and trailing whitespace. -/
def jsTrimChars (l : List Char) : List Char :=
  ((l.dropWhile jsIsWhitespace).reverse.dropWhile jsIsWhitespace).reverse

namespace Synth

/-- The two concrete TTS backends of `synthesizer.ts`. -/
inductive PName
  | piper
  | macos
deriving DecidableEq, Repr

/-- The `TTSProvider` configuration value (`'auto' | 'piper' | 'macos'`). -/
inductive PType
  | auto
  | piper
  | macos
deriving DecidableEq, Repr

/-- The selection-relevant fields of `SpeechSynthesizer`: the configured
provider type, each provider handle's `isAvailable` flag, and the
`this.provider` pointer set by `selectProvider`. -/
structure SelectorState where
  ptype : PType
  piperAvail : Bool
  macosAvail : Bool
  provider : Option PName
deriving DecidableEq, Repr

/-- `SpeechSynthesizer.selectProvider` (synthesizer.ts:83-118): sets the
`this.provider` pointer from the configured type and the availability
flags; `auto` prefers Piper, a specific request falls back as coded. -/
def selectProvider (s : SelectorState) : SelectorState :=
  match s.ptype with
  | .auto =>
    if s.piperAvail then { s with provider := some .piper }
    else if s.macosAvail then { s with provider := some .macos }
    else { s with provider := none }
  | .piper =>
    if s.piperAvail then { s with provider := some .piper }
    else { s with provider := if s.macosAvail then some .macos else none }
  | .macos =>
    if s.macosAvail then { s with provider := some .macos }
    else { s with provider := none }

/-- A provider marking itself unavailable mid-session (the providers flip
their own `_isAvailable`; the synthesizer's `this.provider` pointer is
untouched by this). -/
def markPiperUnavailable (s : SelectorState) : SelectorState :=
  { s with piperAvail := false }

/-- The first provider in preference order whose availability flag is
true — what the spec's fallback algorithm would select. -/
def firstAvailable (s : SelectorState) : Option PName :=
  if s.piperAvail then some .piper
  else if s.macosAvail then some .macos
  else none

/-- The provider handle `speak` dereferences (synthesizer.ts:161-172):
`speak` reads `this.provider` directly and performs no re-selection. -/
def speakUses (s : SelectorState) : Option PName :=
  s.provider

/-- Result of the active provider's own `speak` call (external: Piper or
`say` synthesis/playback). -/
inductive ProviderOutcome
  | ok
  | err
deriving DecidableEq, Repr

/-- How `SpeechSynthesizer.speak` returned when it did not throw. -/
inductive SpeakDone
  | skippedDisabled
  | skippedEmpty
  | noProviderWarned
  | completed
deriving DecidableEq, Repr

/-- The error `speak` re-throws after logging (synthesizer.ts:175-178). -/
inductive TTSError
  | providerSpeakFailed
deriving DecidableEq, Repr

/-- The fields of `SpeechSynthesizer` read by `speak`. -/
structure SpeakState where
  enabled : Bool
  provider : Option PName
deriving DecidableEq, Repr

/-- `SpeechSynthesizer.speak` (synthesizer.ts:150-179), clause by clause:
disabled → return; empty/whitespace text → return; no provider → warn
and return; otherwise delegate to the provider and, if the provider's
`speak` rejects, log the error and `throw error` (modelled as
`Except.error`). -/
def speak (st : SpeakState) (text : String) (outcome : ProviderOutcome) :
    Except TTSError SpeakDone :=
  if st.enabled = false then .ok .skippedDisabled
  else if (jsTrimChars text.data).length = 0 then .ok .skippedEmpty
  else
    match st.provider with
    | none => .ok .noProviderWarned
    | some _ =>
      match outcome with
      | .ok => .ok .completed
      | .err => .error .providerSpeakFailed

/-- The macOS branch of `setRate` (synthesizer.ts:216-229) and
`applySettings` (synthesizer.ts:136-143): a rate `≤ 2.0` is treated as
normalized and converted with `Math.round(rate * 200)`; a larger value
is passed through as words per minute. -/
def macosWpmOfRate (rate : ℚ) : ℚ :=
  if rate ≤ 2 then ((jsMathRound (rate * 200) : ℤ) : ℚ) else rate

/-- The Piper branch of `setRate`/`applySettings`: the normalized rate is
passed to the provider unchanged. -/
def piperRateOfRate (rate : ℚ) : ℚ := rate

end Synth

namespace Orchestr

/-- `AssistantState` of `core/types.ts`, as used by `AssistantService`. -/
inductive AState
  | idle
  | initializing
  | listening
  | processing
  | thinking
  | executing
  | speaking
  | err
deriving DecidableEq, Repr

/-- `AssistantService.startListening` (speech/index.ts:524-527):
`setState('listening')` with no guard on the current state. -/
def startListening (_ : AState) : AState := .listening

/-- `AssistantService.stopListening` (speech/index.ts:532-535). -/
def stopListening (_ : AState) : AState := .idle

/-- The sequence of states `setState` runs through inside one
`processMessage` call (speech/index.ts:318-388): `processing`, then
`executing` when a command matched (otherwise `thinking`), then
`speaking`, then back to `idle`. -/
def processMessageStates (commandMatched : Bool) : List AState :=
  [.processing, (if commandMatched then .executing else .thinking), .speaking, .idle]

/-- The states the mutual-exclusion claim calls an in-flight
interaction. -/
def busyStates : List AState := [.processing, .thinking, .executing, .speaking]

end Orchestr

namespace Wake

/-- `WAKE_WORD_VARIATIONS` (wakeWord.ts:16-26), in source order. -/
def WAKE_WORD_VARIATIONS : List String :=
  ["hey jarvis", "hey jarv", "hi jarvis", "hello jarvis", "ok jarvis",
   "okay jarvis", "jarvis", "hey travis", "hey jervis"]

/-- One `Set.add` step of `buildVariations`: a JS `Set` keeps insertion
order and drops duplicates. -/
def jsSetAdd (l : List String) (s : String) : List String :=
  if l.contains s then l else l ++ [s]

/-- `v.toLowerCase()` at `String` type. -/
def jsToLowerString (s : String) : String := ⟨jsToLowerChars s.data⟩

/-- `WakeWordDetector.buildVariations` (wakeWord.ts:81-100): defaults,
then custom variations, then the configured wake word and its
"hey/hi/hello/ok" prefixed forms, all lowercased, deduplicated in
insertion order. -/
def buildVariations (wakeWord : String) (custom : List String) : List String :=
  let l0 := WAKE_WORD_VARIATIONS.foldl (fun acc v => jsSetAdd acc (jsToLowerString v)) []
  let l1 := custom.foldl (fun acc v => jsSetAdd acc (jsToLowerString v)) l0
  let w := jsToLowerString wakeWord
  let l2 := jsSetAdd l1 w
  let l3 := jsSetAdd l2 ("hey " ++ w)
  let l4 := jsSetAdd l3 ("hi " ++ w)
  let l5 := jsSetAdd l4 ("hello " ++ w)
  jsSetAdd l5 ("ok " ++ w)

/-- The detector state touched by `setWakeWord`: the configured word, the
custom variations, and the regenerated variation list. -/
structure DetectorState where
  wakeWord : String
  custom : List String
  variations : List String
deriving DecidableEq, Repr

/-- `WakeWordDetector.setWakeWord` (wakeWord.ts:355-359): store the new
word and regenerate `this.variations` via `buildVariations`. -/
def setWakeWord (d : DetectorState) (w : String) : DetectorState :=
  { wakeWord := w, custom := d.custom, variations := buildVariations w d.custom }

/-- `WakeWordDetector.calculateSimilarity` (wakeWord.ts:304-322): pick
longer/shorter by length; empty longer → 1; containment →
`shorter.length / longer.length + 0.3`; otherwise the fraction of the
shorter string's characters that occur anywhere in the longer one. -/
def calculateSimilarity (str1 str2 : List Char) : ℚ :=
  let longer := if str1.length > str2.length then str1 else str2
  let shorter := if str1.length > str2.length then str2 else str1
  if longer.length = 0 then 1
  else if jsIncludes longer shorter then
    (shorter.length : ℚ) / (longer.length : ℚ) + 3 / 10
  else
    ((shorter.filter (fun c => longer.contains c)).length : ℚ) / (longer.length : ℚ)

/-- `WakeWordDetector.calculateConfidence` (wakeWord.ts:327-331). -/
def calculateConfidence (text matched : List Char) : ℚ :=
  if text = matched then 1
  else if jsIncludes text matched then 9 / 10
  else calculateSimilarity text matched

/-- `WakeWordDetector.matchWakeWord` (wakeWord.ts:289-299): exact match,
containment, or fuzzy similarity at least the configured sensitivity. -/
def matchWakeWord (sensitivity : ℚ) (text wakeWord : List Char) : Bool :=
  text = wakeWord || jsIncludes text wakeWord ||
    decide (calculateSimilarity text wakeWord ≥ sensitivity)

/-- `WakeWordResult` as produced by `checkWakeWord`. -/
structure WakeWordResult where
  detected : Bool
  keyword : List Char
  confidence : ℚ
deriving DecidableEq, Repr

/-- `WakeWordDetector.checkWakeWord` (wakeWord.ts:256-284) after the
transcription step: lowercase and trim the transcript, return a
non-detection on empty text, otherwise report the first variation that
`matchWakeWord` accepts together with its `calculateConfidence`. -/
def checkWakeWord (sensitivity : ℚ) (variations : List (List Char))
    (transcript : String) : WakeWordResult :=
  let text := jsTrimChars (jsToLowerChars transcript.data)
  if text.isEmpty then ⟨false, [], 0⟩
  else
    match variations.find? (fun v => matchWakeWord sensitivity text v) with
    | some v => ⟨true, v, calculateConfidence text v⟩
    | none => ⟨false, [], 0⟩

/-- The default detector's variation list: configured word `"jarvis"`,
no custom variations (wakeWord.ts:40-46). -/
def defaultVariations : List (List Char) :=
  (buildVariations "jarvis" []).map String.data

end Wake

namespace Rec

/-- `AudioRecorder.detectSound` (recorder.ts:186-205) on a decoded frame
of 16-bit samples: fewer than one sample → false; otherwise
`sqrt(Σ s² / samples) > 300`, written without the square root as
`Σ s² / samples > 300²` (equivalent, both sides nonnegative). -/
def detectSound (frame : List Int) : Bool :=
  if frame.length = 0 then false
  else
    decide ((((frame.map (fun s => s * s)).sum : ℤ) : ℚ) / (frame.length : ℚ) > 300 ^ 2)

/-- The recorder fields used by `start`, the `data` handler and the
silence-detection timer. -/
structure RecorderState where
  isRecording : Bool
  chunks : List (List Int)
  recordingStartTime : Nat
  lastSoundTime : Nat
  hasSoundBeenDetected : Bool
  silenceThreshold : Nat
deriving DecidableEq, Repr

/-- The failure the spec expects from a second `Start`. -/
inductive RecorderError
  | alreadyRecording
deriving DecidableEq, Repr

/-- `AudioRecorder.start` (recorder.ts:61-71): when already recording it
logs `'Already recording'` and returns — the TS method never throws, so
the embedding always yields `.ok`; otherwise the capture state is
reset and recording begins. -/
def start (s : RecorderState) (now : Nat) : Except RecorderError RecorderState :=
  if s.isRecording then .ok s
  else
    .ok { isRecording := true, chunks := [], recordingStartTime := now,
          lastSoundTime := now, hasSoundBeenDetected := false,
          silenceThreshold := s.silenceThreshold }

/-- The stdout `data` handler (recorder.ts:94-108): append the chunk and,
when `detectSound` reports sound, refresh `lastSoundTime` and latch
`hasSoundBeenDetected`. -/
def dataEvent (s : RecorderState) (now : Nat) (frame : List Int) : RecorderState :=
  let s1 := { s with chunks := s.chunks ++ [frame] }
  if detectSound frame then
    { s1 with lastSoundTime := now, hasSoundBeenDetected := true }
  else s1

/-- One tick of the silence-detection interval (recorder.ts:210-226):
the `silence` event fires iff sound was ever detected and the elapsed
silence exceeds `silenceThreshold`, or no sound was ever detected and
the total recording time exceeds the fixed 5000 ms bound. -/
def silenceTickFires (s : RecorderState) (now : Nat) : Bool :=
  (s.hasSoundBeenDetected && decide (now - s.lastSoundTime > s.silenceThreshold)) ||
    (!s.hasSoundBeenDetected && decide (now - s.recordingStartTime > 5000))

/-- The state right after a successful `start` at time `now`. -/
def startedState (now threshold : Nat) : RecorderState :=
  { isRecording := true, chunks := [], recordingStartTime := now,
    lastSoundTime := now, hasSoundBeenDetected := false,
    silenceThreshold := threshold }

/-- Feed a sequence of timestamped frames through the `data` handler. -/
def runFrames (s : RecorderState) (frames : List (Nat × List Int)) : RecorderState :=
  frames.foldl (fun st f => dataEvent st f.1 f.2) s

end Rec

namespace Mem

/-- Message roles of `ConversationMessage` (core/types.ts). -/
inductive Role
  | user
  | assistant
  | sys
deriving DecidableEq, Repr

/-- A conversation turn: only role and content matter to trimming. -/
structure Msg where
  role : Role
  content : String
deriving DecidableEq, Repr

/-- `ConversationMemory`'s trimming-relevant state. -/
structure MemoryState where
  messages : List Msg
  maxMessages : Nat
deriving DecidableEq, Repr

/-- JS `array.slice(-n)`: the last `n` elements — except that
`slice(-0)` is `slice(0)`, the whole array. -/
def jsSliceLast (l : List Msg) (n : Nat) : List Msg :=
  if n = 0 then l else l.drop (l.length - n)

/-- `ConversationMemory.trimMemory` (memory.ts:187-198): split system
from non-system messages; when the non-system count exceeds
`maxMessages`, keep the system messages followed by
`otherMessages.slice(-maxMessages)`. -/
def trimMemory (m : MemoryState) : MemoryState :=
  let sysMsgs := m.messages.filter (fun x => x.role == Role.sys)
  let other := m.messages.filter (fun x => !(x.role == Role.sys))
  if other.length > m.maxMessages then
    { m with messages := sysMsgs ++ jsSliceLast other m.maxMessages }
  else m

/-- The memory operations of `memory.ts`: `addUserMessage` and
`addAssistantMessage` push then trim (memory.ts:46-81);
`addSystemMessage` unshifts and does not trim (memory.ts:86-96). -/
inductive MemOp
  | addUser (content : String)
  | addAssistant (content : String)
  | addSystem (content : String)
deriving DecidableEq, Repr

/-- Apply one memory operation. -/
def applyOp (m : MemoryState) : MemOp → MemoryState
  | .addUser c => trimMemory { m with messages := m.messages ++ [⟨Role.user, c⟩] }
  | .addAssistant c => trimMemory { m with messages := m.messages ++ [⟨Role.assistant, c⟩] }
  | .addSystem c => { m with messages := ⟨Role.sys, c⟩ :: m.messages }

/-- Run a sequence of memory operations from a fresh memory with the
given `maxMessages` configuration. -/
def runOps (maxMessages : Nat) (ops : List MemOp) : MemoryState :=
  ops.foldl applyOp ⟨[], maxMessages⟩

/-- The non-system turns an operation sequence appends, in arrival
order. -/
def nonSystemTurns : List MemOp → List Msg
  | [] => []
  | .addUser c :: ops => ⟨Role.user, c⟩ :: nonSystemTurns ops
  | .addAssistant c :: ops => ⟨Role.assistant, c⟩ :: nonSystemTurns ops
  | .addSystem _ :: ops => nonSystemTurns ops

/-- The system turns an operation sequence appends, in arrival order. -/
def systemTurns : List MemOp → List Msg
  | [] => []
  | .addSystem c :: ops => ⟨Role.sys, c⟩ :: systemTurns ops
  | .addUser _ :: ops => systemTurns ops
  | .addAssistant _ :: ops => systemTurns ops

/-- The non-system messages a memory currently holds, in order. -/
def nonSystemOf (m : MemoryState) : List Msg :=
  m.messages.filter (fun x => !(x.role == Role.sys))

/-- The system messages a memory currently holds, in order. -/
def systemOf (m : MemoryState) : List Msg :=
  m.messages.filter (fun x => x.role == Role.sys)

end Mem

namespace Cmd

/-- The regex fragments occurring in the `set-volume` patterns
(core's `commands/system.ts:511-515`): a literal run, an optional
non-capturing literal group `(?:…)?`, and the capture group `(\d+)`. -/
inductive RTok
  | lit (s : List Char)
  | opt (s : List Char)
  | digitsCap
deriving DecidableEq, Repr

/-- Match a token list at the start of `cs`, returning the captures.
`opt` is greedy with backtracking, as in the JS engine. `digitsCap`
takes the maximal digit run without backtracking — identical to the JS
engine here because no embedded pattern continues with a digit after
the capture. -/
def matchHere : List RTok → List Char → Option (List (List Char))
  | [], _ => some []
  | .lit s :: ts, cs =>
    if s.isPrefixOf cs then matchHere ts (cs.drop s.length) else none
  | .opt s :: ts, cs =>
    if s.isPrefixOf cs then
      match matchHere ts (cs.drop s.length) with
      | some r => some r
      | none => matchHere ts cs
    else matchHere ts cs
  | .digitsCap :: ts, cs =>
    let ds := cs.takeWhile Char.isDigit
    if ds.isEmpty then none
    else (matchHere ts (cs.drop ds.length)).map (ds :: ·)

/-- Unanchored search, leftmost match first, as JS `pattern.test` /
`string.match` for patterns without anchors. -/
def searchToks (toks : List RTok) : List Char → Option (List (List Char))
  | [] => matchHere toks []
  | c :: rest =>
    match matchHere toks (c :: rest) with
    | some r => some r
    | none => searchToks toks rest

/-- JS `pattern.test(s)`. -/
def toksMatch (toks : List RTok) (cs : List Char) : Bool :=
  (searchToks toks cs).isSome

/-- Literal token from a string. -/
def litS (s : String) : RTok := .lit s.data

/-- Optional-literal token from a string. -/
def optS (s : String) : RTok := .opt s.data

/-- `/set (?:the )?volume (?:to )?(\d+)/i` (system.ts:512). -/
def setVolumePattern1 : List RTok :=
  [litS "set ", optS "the ", litS "volume ", optS "to ", .digitsCap]

/-- `/volume (?:to )?(\d+)/i` (system.ts:513). -/
def setVolumePattern2 : List RTok :=
  [litS "volume ", optS "to ", .digitsCap]

/-- `/make (?:the )?volume (\d+)/i` (system.ts:514). -/
def setVolumePattern3 : List RTok :=
  [litS "make ", optS "the ", litS "volume ", .digitsCap]

/-- A registered command's matching data: name and ordered patterns. -/
structure CommandDef where
  name : String
  patterns : List (List RTok)
deriving DecidableEq, Repr

/-- `setVolumeCommand` (system.ts:507-531), matching part. -/
def setVolumeCommand : CommandDef :=
  ⟨"set-volume", [setVolumePattern1, setVolumePattern2, setVolumePattern3]⟩

/-- `input.toLowerCase().trim()` as used by `findCommand` and
`executeCommand` (commands/index.ts:307, 341, 348). -/
def jsNormalize (s : String) : List Char := jsTrimChars (jsToLowerChars s.data)

/-- `findCommand` (commands/index.ts:306-319): first registered command
one of whose patterns tests true on the normalized input. -/
def findCommand (cmds : List CommandDef) (input : String) : Option CommandDef :=
  cmds.find? (fun c => c.patterns.any (fun p => toksMatch p (jsNormalize input)))

/-- The capture computation of `executeCommand` (commands/index.ts:
339-343): the first pattern that matches the normalized input supplies
the captures. -/
def firstPatternCaptures : List (List RTok) → List Char → Option (List (List Char))
  | [], _ => none
  | p :: ps, cs =>
    match searchToks p cs with
    | some r => some r
    | none => firstPatternCaptures ps cs

/-- `/^\d+$/.test(value)` (commands/index.ts:390). -/
def isNumericStr (v : List Char) : Bool :=
  !v.isEmpty && v.all Char.isDigit

/-- `extractEntities` (commands/index.ts:380-402) as the ordered list of
assignments made to the `entities` record: for each non-empty capture,
`param{i+1}`, then `level` and `number` when the capture is numeric,
else `text` and `app`. -/
def extractEntities (caps : List (List Char)) : List (String × List Char) :=
  (caps.enum.map (fun iv =>
    if iv.2.isEmpty then []
    else
      ("param" ++ Nat.repr (iv.1 + 1), iv.2) ::
        (if isNumericStr iv.2 then [("level", iv.2), ("number", iv.2)]
         else [("text", iv.2), ("app", iv.2)]))).flatten

/-- Reading a key from the `entities` record: the last assignment to the
key wins, as for a JS object. -/
def entitiesGet (es : List (String × List Char)) (k : String) : Option (List Char) :=
  es.foldl (fun acc e => if e.1 = k then some e.2 else acc) none

/-- `parseInt(v, 10)` on the strings reaching the set-volume executor:
the value of the leading digit run, `none` for `NaN`. -/
def jsParseIntDigits (v : List Char) : Option Nat :=
  let ds := v.takeWhile Char.isDigit
  if ds.isEmpty then none
  else some (ds.foldl (fun a c => 10 * a + (c.toNat - 48)) 0)

/-- The set-volume executor (system.ts:521-530): read `entities['level']`
(falling back to the first capture, then `'50'`, on empty or missing
values), parse it, call the external `macOS.setVolume` (its success is
the `osOk` parameter; the catch branch answers with the apology), and
answer `Volume set to {level}%`. -/
def setVolumeExecute (entities : List (String × List Char))
    (caps : List (List Char)) (osOk : Bool) : String :=
  let fallback1 := match caps.head? with
    | some v => if v.isEmpty then "50".data else v
    | none => "50".data
  let lvlStr := match entitiesGet entities "level" with
    | some v => if v.isEmpty then fallback1 else v
    | none => fallback1
  if osOk then
    match jsParseIntDigits lvlStr with
    | some n => "Volume set to " ++ Nat.repr n ++ "%"
    | none => "Volume set to NaN%"
  else "Sorry, I couldn't set the volume."

/-- End-to-end resolution of one input against `setVolumeCommand`
inside `executeCommand`: captures, entities, executor response. -/
def resolveSetVolume (input : String) (osOk : Bool) : Option String :=
  (firstPatternCaptures setVolumeCommand.patterns (jsNormalize input)).map
    (fun caps => setVolumeExecute (extractEntities caps) caps osOk)

end Cmd

/-! ## C1 — speak error handling at the Selector boundary -/

/-- C1 counterexample: with an active provider whose synthesis fails,
`SpeechSynthesizer.speak` re-throws the provider error to its caller
(synthesizer.ts:177 `throw error`), so a synthesis/playback error does
throw past the Selector boundary. -/
theorem speak_rethrows_counterexample :
    Synth.speak ⟨true, some .piper⟩ "hello" .err =
      .error .providerSpeakFailed :=
  rfl

/-- C1 (amended): `speak` with no active provider returns normally (a
warn-and-return no-op, `.noProviderWarned` when TTS is enabled and the
text is non-blank); but when the active provider's speak raises, the
error is logged and re-thrown to the caller rather than swallowed. -/
theorem speak_noProvider_noop_error_rethrown
    (st : Synth.SpeakState) (text : String) (outcome : Synth.ProviderOutcome) :
    (st.provider = none → (Synth.speak st text outcome).isOk = true) ∧
    (st.provider = none → st.enabled = true → (jsTrimChars text.data).length ≠ 0 →
      Synth.speak st text outcome = .ok .noProviderWarned) ∧
    (st.enabled = true → (jsTrimChars text.data).length ≠ 0 → st.provider ≠ none →
      outcome = .err → Synth.speak st text outcome = .error .providerSpeakFailed) := by
  refine ⟨?_, ?_, ?_⟩
  · intro hp
    unfold Synth.speak
    rcases h1 : st.enabled with _ | _
    · simp [h1, Except.isOk, Except.toBool]
    · by_cases h2 : (jsTrimChars text.data).length = 0
      · simp [h1, h2, Except.isOk, Except.toBool]
      · simp [h1, h2, hp, Except.isOk, Except.toBool]
  · intro hp he hl
    unfold Synth.speak
    simp [hp, he, hl]
  · intro he hl hp ho
    unfold Synth.speak
    rcases h : st.provider with _ | p
    · exact absurd h hp
    · simp [he, hl, h, ho]

/-- C1 witness: the two branches at concrete inputs. -/
theorem speak_noProvider_noop_error_rethrown_witness :
    Synth.speak ⟨true, none⟩ "hello" .err = .ok .noProviderWarned ∧
    Synth.speak ⟨true, some .piper⟩ "hello" .err = .error .providerSpeakFailed :=
  ⟨(speak_noProvider_noop_error_rethrown ⟨true, none⟩ "hello" .err).2.1
      rfl rfl (by decide),
   (speak_noProvider_noop_error_rethrown ⟨true, some .piper⟩ "hello" .err).2.2
      rfl (by decide) (by decide) rfl⟩

/-! ## C2 — provider re-selection on speak -/

/-- C2 counterexample: start in `auto` with both providers available
(selection picks Piper), then Piper marks itself unavailable. The
fallback order now designates macOS, but `speak` still dereferences the
stale `this.provider` pointer and uses Piper: no re-selection happens on
the `speak` call. -/
theorem speak_no_reselection_counterexample :
    Synth.firstAvailable
        (Synth.markPiperUnavailable
          (Synth.selectProvider ⟨.auto, true, true, none⟩)) = some .macos ∧
    Synth.speakUses
        (Synth.markPiperUnavailable
          (Synth.selectProvider ⟨.auto, true, true, none⟩)) = some .piper ∧
    some Synth.PName.piper ≠ some Synth.PName.macos := by
  refine ⟨rfl, rfl, by decide⟩

/-- C2 (amended): `selectProvider` follows the preference order over the
availability flags at the moment it runs (initialization or an explicit
provider change), and later availability flips do not change the
provider the next `speak` call uses — `speak` performs no re-selection. -/
theorem selectProvider_order_speak_stale
    (pa ma pa2 ma2 : Bool) :
    Synth.speakUses
        { Synth.selectProvider ⟨.auto, pa, ma, none⟩ with
            piperAvail := pa2, macosAvail := ma2 } =
      (Synth.selectProvider ⟨.auto, pa, ma, none⟩).provider ∧
    (Synth.selectProvider ⟨.auto, pa, ma, none⟩).provider =
      Synth.firstAvailable ⟨.auto, pa, ma, none⟩ := by
  rcases pa with _ | _ <;> rcases ma with _ | _ <;> exact ⟨rfl, rfl⟩

/-! ## C3 — mutual exclusion of Listening and in-flight interaction -/

/-- C3 counterexample: `processing` is one of the states an in-flight
`processMessage` passes through, yet a start-listening request in that
state transitions straight into `listening` — `startListening` has no
guard, so the claimed mutual exclusion does not hold. -/
theorem startListening_during_processing_counterexample :
    Orchestr.AState.processing ∈ Orchestr.processMessageStates true ∧
    Orchestr.AState.processing ∈ Orchestr.busyStates ∧
    Orchestr.startListening .processing = .listening := by
  refine ⟨by decide, by decide, rfl⟩

/-- C3 (amended): a start-listening request unconditionally sets the
state to `listening` from every state, including all the busy states of
an in-flight interaction; no mutual exclusion is enforced by
`startListening`/`setState`. -/
theorem startListening_unconditional :
    (∀ s : Orchestr.AState, Orchestr.startListening s = .listening) ∧
    (∀ b : Bool, Orchestr.AState.processing ∈ Orchestr.processMessageStates b ∧
      Orchestr.AState.speaking ∈ Orchestr.processMessageStates b) := by
  refine ⟨fun _ => rfl, fun b => ?_⟩
  rcases b with _ | _ <;> exact ⟨by decide, by decide⟩

/-! ## C6 — Start while already recording -/

/-- C6 counterexample: `AudioRecorder.start` during an active capture
logs `'Already recording'` and returns normally with the capture state
untouched — it does not fail with an `AlreadyRecording` error. -/
theorem start_whileRecording_counterexample :
    Rec.start ⟨true, [[1, 2]], 100, 150, true, 2000⟩ 500 =
      .ok ⟨true, [[1, 2]], 100, 150, true, 2000⟩ ∧
    Rec.start ⟨true, [[1, 2]], 100, 150, true, 2000⟩ 500 ≠
      .error .alreadyRecording := by
  exact ⟨rfl, by simp [Rec.start]⟩

/-- C6 (amended): a `start` call while already recording is a
warn-and-return no-op — it returns normally (never an error) and leaves
the in-progress capture (chunks, start time, sound flags) unchanged. -/
theorem start_whileRecording_noop
    (s : Rec.RecorderState) (now : Nat) (h : s.isRecording = true) :
    Rec.start s now = .ok s := by
  unfold Rec.start
  simp [h]

/-- C6 witness. -/
theorem start_whileRecording_noop_witness :
    Rec.start ⟨true, [[1, 2]], 100, 150, true, 2000⟩ 500 =
      .ok ⟨true, [[1, 2]], 100, 150, true, 2000⟩ :=
  start_whileRecording_noop ⟨true, [[1, 2]], 100, 150, true, 2000⟩ 500 rfl

/-! ## C4 — monotonicity of the rate translation -/

/-- C4 counterexample: the macOS rate translation is not monotonic over
all rates. At the boundary of the normalized range, rate `2.0` becomes
`Math.round(2.0 * 200) = 400` WPM, while the larger rate `2.5` is passed
through as `2.5` WPM — a strictly slower native parameter. -/
theorem macosWpmOfRate_not_monotone_counterexample :
    (2 : ℚ) < 5 / 2 ∧
    Synth.macosWpmOfRate 2 = 400 ∧
    Synth.macosWpmOfRate (5 / 2) = 5 / 2 ∧
    ¬(Synth.macosWpmOfRate 2 ≤ Synth.macosWpmOfRate (5 / 2)) := by
  refine ⟨by norm_num, ?_, ?_, ?_⟩
  · norm_num [Synth.macosWpmOfRate, jsMathRound]
  · norm_num [Synth.macosWpmOfRate]
  · norm_num [Synth.macosWpmOfRate, jsMathRound]

/-- C4 (amended): within the normalized range (rates ≤ 2.0) the
translation is monotonic for both providers: Piper receives the rate
unchanged and the macOS words-per-minute value `Math.round(rate * 200)`
is non-decreasing; monotonicity fails only across the `2.0` boundary,
where a larger value is interpreted as raw WPM. -/
theorem rate_translation_monotone_on_normalized_range
    (r1 r2 : ℚ) (h12 : r1 ≤ r2) (h2 : r2 ≤ 2) :
    Synth.piperRateOfRate r1 ≤ Synth.piperRateOfRate r2 ∧
    Synth.macosWpmOfRate r1 ≤ Synth.macosWpmOfRate r2 := by
  refine ⟨h12, ?_⟩
  unfold Synth.macosWpmOfRate jsMathRound
  rw [if_pos (le_trans h12 h2), if_pos h2]
  have h : r1 * 200 + 1 / 2 ≤ r2 * 200 + 1 / 2 := by nlinarith
  exact_mod_cast Int.floor_le_floor h

/-- C4 witness. -/
theorem rate_translation_monotone_witness :
    Synth.piperRateOfRate 1 ≤ Synth.piperRateOfRate 2 ∧
    Synth.macosWpmOfRate 1 ≤ Synth.macosWpmOfRate 2 :=
  rate_translation_monotone_on_normalized_range 1 2 (by norm_num) (by norm_num)

/-! ## C8 — silence detection on all-quiet recordings -/

/-- Frames in which `detectSound` finds no sound leave the `everLoud`
latch and the recording start time untouched. -/
lemma runFrames_quiet_preserves (frames : List (Nat × List Int)) :
    ∀ s : Rec.RecorderState, (∀ f ∈ frames, Rec.detectSound f.2 = false) →
      (Rec.runFrames s frames).hasSoundBeenDetected = s.hasSoundBeenDetected ∧
      (Rec.runFrames s frames).recordingStartTime = s.recordingStartTime := by
  induction frames with
  | nil => intro s _; exact ⟨rfl, rfl⟩
  | cons f fs ih =>
    intro s hq
    have hf : Rec.detectSound f.2 = false := hq f (List.mem_cons_self f fs)
    have hfs : ∀ g ∈ fs, Rec.detectSound g.2 = false :=
      fun g hg => hq g (List.mem_cons_of_mem f hg)
    have hstep : Rec.runFrames s (f :: fs) = Rec.runFrames (Rec.dataEvent s f.1 f.2) fs := rfl
    rw [hstep]
    have hde : (Rec.dataEvent s f.1 f.2).hasSoundBeenDetected = s.hasSoundBeenDetected ∧
        (Rec.dataEvent s f.1 f.2).recordingStartTime = s.recordingStartTime := by
      unfold Rec.dataEvent
      rw [hf]
      exact ⟨rfl, rfl⟩
    rcases ih (Rec.dataEvent s f.1 f.2) hfs with ⟨ih1, ih2⟩
    exact ⟨ih1.trans hde.1, ih2.trans hde.2⟩

/-- C8: on a recording in which no frame's RMS amplitude exceeds the
loudness threshold (`detectSound` never fires, so `everLoud` stays
false), a silence-check tick emits the `silence` event exactly when the
total recording time exceeds the fixed 5000 ms no-signal bound — never
earlier, and independent of the configured `silenceThreshold`. -/
theorem silence_fires_at_no_signal_bound
    (t0 thr : Nat) (frames : List (Nat × List Int)) (t : Nat)
    (hq : ∀ f ∈ frames, Rec.detectSound f.2 = false) :
    Rec.silenceTickFires (Rec.runFrames (Rec.startedState t0 thr) frames) t =
      decide (t - t0 > 5000) := by
  rcases runFrames_quiet_preserves frames (Rec.startedState t0 thr) hq with ⟨h1, h2⟩
  unfold Rec.silenceTickFires
  rw [h1, h2]
  simp [Rec.startedState]

/-- C8 witness: one silent (empty) frame, tick at 6001 ms. -/
theorem silence_fires_at_no_signal_bound_witness :
    Rec.silenceTickFires
        (Rec.runFrames (Rec.startedState 0 2000) [(10, [])]) 6001 =
      decide (6001 - 0 > 5000) :=
  silence_fires_at_no_signal_bound 0 2000 [(10, [])] 6001
    (fun f hf => by rcases List.mem_singleton.mp hf with rfl; rfl)

/-! ## C10 — default variations survive a wake-word change -/

/-- Adding to the JS `Set` keeps the added element. -/
lemma mem_jsSetAdd_self (l : List String) (s : String) : s ∈ Wake.jsSetAdd l s := by
  unfold Wake.jsSetAdd
  split
  · next h => simpa using h
  · exact List.mem_append_right l (List.mem_singleton.mpr rfl)

/-- Adding to the JS `Set` keeps every element already present. -/
lemma mem_jsSetAdd_of_mem {l : List String} {a : String} (s : String)
    (h : a ∈ l) : a ∈ Wake.jsSetAdd l s := by
  unfold Wake.jsSetAdd
  split
  · exact h
  · exact List.mem_append_left [s] h

/-- Folding `jsSetAdd` over a list keeps every element already present. -/
lemma mem_foldl_jsSetAdd (g : String → String) (xs : List String) :
    ∀ (l : List String) (a : String), a ∈ l →
      a ∈ xs.foldl (fun acc v => Wake.jsSetAdd acc (g v)) l := by
  induction xs with
  | nil => intro l a h; exact h
  | cons x xs ih => intro l a h; exact ih (Wake.jsSetAdd l (g x)) a (mem_jsSetAdd_of_mem (g x) h)

/-- Folding `jsSetAdd` over a list inserts the image of each element. -/
lemma mem_foldl_jsSetAdd_image (g : String → String) (xs : List String) :
    ∀ (l : List String) (v : String), v ∈ xs →
      g v ∈ xs.foldl (fun acc w => Wake.jsSetAdd acc (g w)) l := by
  induction xs with
  | nil => intro l v h; cases h
  | cons x xs ih =>
    intro l v h
    rcases List.mem_cons.mp h with rfl | h2
    · exact mem_foldl_jsSetAdd g xs (Wake.jsSetAdd l (g v)) (g v) (mem_jsSetAdd_self l (g v))
    · exact ih (Wake.jsSetAdd l (g x)) v h2

/-- C10: after `setWakeWord w`, the regenerated variation list still
contains every built-in default variation of `WAKE_WORD_VARIATIONS`
(so transcripts matching the previous default wake phrase keep being
detected), in addition to the lowercased new word and its prefixed
forms. -/
theorem setWakeWord_keeps_default_variations
    (d : Wake.DetectorState) (w : String) :
    (∀ v ∈ Wake.WAKE_WORD_VARIATIONS, v ∈ (Wake.setWakeWord d w).variations) ∧
    Wake.jsToLowerString w ∈ (Wake.setWakeWord d w).variations ∧
    ("hey " ++ Wake.jsToLowerString w) ∈ (Wake.setWakeWord d w).variations := by
  have hlow : ∀ x ∈ Wake.WAKE_WORD_VARIATIONS, Wake.jsToLowerString x = x := by decide
  unfold Wake.setWakeWord Wake.buildVariations
  refine ⟨?_, ?_, ?_⟩
  · intro v hv
    have h0 : v ∈ Wake.WAKE_WORD_VARIATIONS.foldl
        (fun acc x => Wake.jsSetAdd acc (Wake.jsToLowerString x)) [] := by
      have := mem_foldl_jsSetAdd_image Wake.jsToLowerString Wake.WAKE_WORD_VARIATIONS [] v hv
      rwa [hlow v hv] at this
    have h1 := mem_foldl_jsSetAdd Wake.jsToLowerString d.custom _ v h0
    exact mem_jsSetAdd_of_mem _ (mem_jsSetAdd_of_mem _ (mem_jsSetAdd_of_mem _
      (mem_jsSetAdd_of_mem _ (mem_jsSetAdd_of_mem _ h1))))
  · exact mem_jsSetAdd_of_mem _ (mem_jsSetAdd_of_mem _ (mem_jsSetAdd_of_mem _
      (mem_jsSetAdd_of_mem _ (mem_jsSetAdd_self _ _))))
  · exact mem_jsSetAdd_of_mem _ (mem_jsSetAdd_of_mem _ (mem_jsSetAdd_of_mem _
      (mem_jsSetAdd_self _ _)))

/-- C10 witness: changing the wake word from `"jarvis"` to `"computer"`
keeps the default variation `"hey jarvis"` and adds `"hey computer"`. -/
theorem setWakeWord_keeps_default_variations_witness :
    "hey jarvis" ∈
      (Wake.setWakeWord ⟨"jarvis", [], Wake.buildVariations "jarvis" []⟩
        "computer").variations ∧
    ("hey " ++ Wake.jsToLowerString "computer") ∈
      (Wake.setWakeWord ⟨"jarvis", [], Wake.buildVariations "jarvis" []⟩
        "computer").variations :=
  ⟨(setWakeWord_keeps_default_variations
      ⟨"jarvis", [], Wake.buildVariations "jarvis" []⟩ "computer").1
        "hey jarvis" (by decide),
   (setWakeWord_keeps_default_variations
      ⟨"jarvis", [], Wake.buildVariations "jarvis" []⟩ "computer").2.2⟩

/-! ## C9 — entity tagging and the volume scenario -/

/-- Every member of a list appears in its enumeration (from any start
index). -/
lemma exists_mem_enumFrom (v : List Char) :
    ∀ (caps : List (List Char)) (n : Nat), v ∈ caps →
      ∃ i, (i, v) ∈ caps.enumFrom n := by
  intro caps
  induction caps with
  | nil => intro n h; cases h
  | cons c cs ih =>
    intro n h
    rcases List.mem_cons.mp h with rfl | h2
    · exact ⟨n, List.mem_cons_self _ _⟩
    · obtain ⟨i, hi⟩ := ih (n + 1) h2
      exact ⟨i, List.mem_cons_of_mem _ hi⟩

/-- C9: `extractEntities` stores every non-empty numeric capture group
under both the `level` and `number` keys and every non-empty
non-numeric capture under both `text` and `app`; and the input
`"volume to 42"` resolves to the `set-volume` command (first in the
registry, whichever commands follow), with `entities['level'] = "42"`,
yielding the response `"Volume set to 42%"`. -/
theorem entities_tagging_and_volume_scenario :
    (∀ (caps : List (List Char)) (v : List Char), v ∈ caps → v ≠ [] →
      (Cmd.isNumericStr v = true →
        ("level", v) ∈ Cmd.extractEntities caps ∧
        ("number", v) ∈ Cmd.extractEntities caps) ∧
      (Cmd.isNumericStr v = false →
        ("text", v) ∈ Cmd.extractEntities caps ∧
        ("app", v) ∈ Cmd.extractEntities caps)) ∧
    (∀ rest : List Cmd.CommandDef,
      Cmd.findCommand (Cmd.setVolumeCommand :: rest) "volume to 42" =
        some Cmd.setVolumeCommand) ∧
    Cmd.entitiesGet (Cmd.extractEntities ["42".data]) "level" = some "42".data ∧
    Cmd.resolveSetVolume "volume to 42" true = some "Volume set to 42%" := by
  refine ⟨?_, ?_, by decide, by decide⟩
  · intro caps v hv hne
    obtain ⟨i, hi⟩ := exists_mem_enumFrom v caps 0 hv
    have hie : (i, v) ∈ caps.enum := hi
    have hEmpty : v.isEmpty = false := by simpa using hne
    constructor
    · intro hnum
      have hblock :
          (("param" ++ Nat.repr (i + 1), v) :: [("level", v), ("number", v)]) ∈
            caps.enum.map (fun iv =>
              if iv.2.isEmpty then []
              else
                ("param" ++ Nat.repr (iv.1 + 1), iv.2) ::
                  (if Cmd.isNumericStr iv.2 then [("level", iv.2), ("number", iv.2)]
                   else [("text", iv.2), ("app", iv.2)])) := by
        have := List.mem_map_of_mem (fun iv =>
          if iv.2.isEmpty then []
          else
            ("param" ++ Nat.repr (iv.1 + 1), iv.2) ::
              (if Cmd.isNumericStr iv.2 then [("level", iv.2), ("number", iv.2)]
               else [("text", iv.2), ("app", iv.2)])) hie
        simpa [hEmpty, hnum] using this
      constructor
      · exact List.mem_flatten.mpr ⟨_, hblock, by simp⟩
      · exact List.mem_flatten.mpr ⟨_, hblock, by simp⟩
    · intro hnum
      have hblock :
          (("param" ++ Nat.repr (i + 1), v) :: [("text", v), ("app", v)]) ∈
            caps.enum.map (fun iv =>
              if iv.2.isEmpty then []
              else
                ("param" ++ Nat.repr (iv.1 + 1), iv.2) ::
                  (if Cmd.isNumericStr iv.2 then [("level", iv.2), ("number", iv.2)]
                   else [("text", iv.2), ("app", iv.2)])) := by
        have := List.mem_map_of_mem (fun iv =>
          if iv.2.isEmpty then []
          else
            ("param" ++ Nat.repr (iv.1 + 1), iv.2) ::
              (if Cmd.isNumericStr iv.2 then [("level", iv.2), ("number", iv.2)]
               else [("text", iv.2), ("app", iv.2)])) hie
        simpa [hEmpty, hnum] using this
      constructor
      · exact List.mem_flatten.mpr ⟨_, hblock, by simp⟩
      · exact List.mem_flatten.mpr ⟨_, hblock, by simp⟩
  · intro rest
    unfold Cmd.findCommand
    exact List.find?_cons_of_pos rest (by decide)

/-- C9 witness: the numeric capture `"42"` and the non-numeric capture
`"safari"` at concrete capture lists. -/
theorem entities_tagging_and_volume_scenario_witness :
    (("level", "42".data) ∈ Cmd.extractEntities ["42".data] ∧
      ("number", "42".data) ∈ Cmd.extractEntities ["42".data]) ∧
    (("text", "safari".data) ∈ Cmd.extractEntities ["safari".data] ∧
      ("app", "safari".data) ∈ Cmd.extractEntities ["safari".data]) :=
  ⟨(entities_tagging_and_volume_scenario.1 ["42".data] "42".data
      (by decide) (by decide)).1 (by decide),
   (entities_tagging_and_volume_scenario.1 ["safari".data] "safari".data
      (by decide) (by decide)).2 (by decide)⟩

/-! ## C5 — wake-word confidence range -/

/-- A ratio of list lengths lies in `[0, 1]` when the numerator is at
most the (non-zero) denominator. -/
lemma natDiv_bounds (a b : Nat) (hb : b ≠ 0) (hab : a ≤ b) :
    0 ≤ (a : ℚ) / (b : ℚ) ∧ (a : ℚ) / (b : ℚ) ≤ 1 := by
  have hbpos : (0 : ℚ) < (b : ℚ) := by exact_mod_cast Nat.pos_of_ne_zero hb
  constructor
  · positivity
  · rw [div_le_one hbpos]
    exact_mod_cast hab

/-- `calculateSimilarity` always lies in `[0, 13/10]`: the containment
branch adds `0.3` to a ratio in `[0, 1]` and is not capped, the other
branches stay in `[0, 1]`. -/
lemma calculateSimilarity_bounds (s1 s2 : List Char) :
    0 ≤ Wake.calculateSimilarity s1 s2 ∧ Wake.calculateSimilarity s1 s2 ≤ 13 / 10 := by
  unfold Wake.calculateSimilarity
  by_cases hgt : s1.length > s2.length
  · simp only [if_pos hgt]
    by_cases h0 : s1.length = 0
    · rw [if_pos h0]; norm_num
    · rw [if_neg h0]
      have hle : s2.length ≤ s1.length := le_of_lt hgt
      by_cases hinc : jsIncludes s1 s2 = true
      · simp only [hinc, if_true]
        rcases natDiv_bounds s2.length s1.length h0 hle with ⟨hb1, hb2⟩
        constructor <;> linarith
      · simp only [hinc, Bool.false_eq_true, if_false]
        obtain ⟨ha, hb⟩ := natDiv_bounds (s2.filter (fun c => s1.contains c)).length
          s1.length h0 (le_trans (List.length_filter_le _ s2) hle)
        exact ⟨ha, le_trans hb (by norm_num)⟩
  · simp only [if_neg hgt]
    by_cases h0 : s2.length = 0
    · rw [if_pos h0]; norm_num
    · rw [if_neg h0]
      have hle : s1.length ≤ s2.length := Nat.le_of_not_lt hgt
      by_cases hinc : jsIncludes s2 s1 = true
      · simp only [hinc, if_true]
        rcases natDiv_bounds s1.length s2.length h0 hle with ⟨hb1, hb2⟩
        constructor <;> linarith
      · simp only [hinc, Bool.false_eq_true, if_false]
        obtain ⟨ha, hb⟩ := natDiv_bounds (s1.filter (fun c => s2.contains c)).length
          s2.length h0 (le_trans (List.length_filter_le _ s1) hle)
        exact ⟨ha, le_trans hb (by norm_num)⟩

/-- `calculateConfidence` always lies in `[0, 13/10]`. -/
lemma calculateConfidence_bounds (t m : List Char) :
    0 ≤ Wake.calculateConfidence t m ∧ Wake.calculateConfidence t m ≤ 13 / 10 := by
  unfold Wake.calculateConfidence
  by_cases h1 : t = m
  · rw [if_pos h1]; norm_num
  · rw [if_neg h1]
    by_cases h2 : jsIncludes t m = true
    · simp only [h2, if_true]; norm_num
    · simp only [h2, Bool.false_eq_true, if_false]
      exact calculateSimilarity_bounds t m

/-- C5 counterexample: the transcript `"ey jarvis"` (a one-letter
mis-hearing) is matched against the first default variation
`"hey jarvis"` through the containment branch of
`calculateSimilarity`, and the reported `DetectionResult` carries
confidence `9/10 + 3/10 = 1.2 > 1` — the `+ 0.3` score is not capped
at `1.0` in the code. -/
theorem wake_confidence_above_one_counterexample :
    (Wake.checkWakeWord (3 / 5) Wake.defaultVariations "ey jarvis").detected = true ∧
    (Wake.checkWakeWord (3 / 5) Wake.defaultVariations "ey jarvis").keyword =
      "hey jarvis".data ∧
    (Wake.checkWakeWord (3 / 5) Wake.defaultVariations "ey jarvis").confidence = 6 / 5 ∧
    ¬((Wake.checkWakeWord (3 / 5) Wake.defaultVariations "ey jarvis").confidence ≤ 1) := by
  have hsim : Wake.calculateSimilarity "ey jarvis".data "hey jarvis".data =
      ((9 : ℕ) : ℚ) / ((10 : ℕ) : ℚ) + 3 / 10 := rfl
  have hsimval : Wake.calculateSimilarity "ey jarvis".data "hey jarvis".data = 6 / 5 := by
    rw [hsim]; norm_num
  have hconf : Wake.calculateConfidence "ey jarvis".data "hey jarvis".data = 6 / 5 := by
    unfold Wake.calculateConfidence
    rw [if_neg (by decide), if_neg (by decide)]
    exact hsimval
  have hmatch : Wake.matchWakeWord (3 / 5) "ey jarvis".data "hey jarvis".data = true := by
    unfold Wake.matchWakeWord
    have hc : decide (Wake.calculateSimilarity "ey jarvis".data "hey jarvis".data ≥ 3 / 5) =
        true := decide_eq_true (by rw [hsimval]; norm_num)
    simp [hc]
  have hvars : Wake.defaultVariations = Wake.WAKE_WORD_VARIATIONS.map String.data := by
    decide
  have htext : jsTrimChars (jsToLowerChars "ey jarvis".data) = "ey jarvis".data := by
    decide
  have hck : Wake.checkWakeWord (3 / 5) Wake.defaultVariations "ey jarvis" =
      ⟨true, "hey jarvis".data,
        Wake.calculateConfidence "ey jarvis".data "hey jarvis".data⟩ := by
    unfold Wake.checkWakeWord
    rw [htext, hvars]
    rw [if_neg (by decide)]
    have hfind : (Wake.WAKE_WORD_VARIATIONS.map String.data).find?
        (fun v => Wake.matchWakeWord (3 / 5) "ey jarvis".data v) =
          some "hey jarvis".data := by
      have hshape : Wake.WAKE_WORD_VARIATIONS.map String.data =
          "hey jarvis".data ::
            (["hey jarv", "hi jarvis", "hello jarvis", "ok jarvis",
              "okay jarvis", "jarvis", "hey travis", "hey jervis"].map String.data) := rfl
      rw [hshape]
      exact List.find?_cons_of_pos _ hmatch
    rw [hfind]
  rw [hck]
  refine ⟨rfl, rfl, hconf, ?_⟩
  rw [hconf]; norm_num

/-- C5 (amended): the reported confidence always lies in `[0, 1.3]`; the
exact-match and substring branches stay within `[0, 1]`, but the
uncapped containment branch of `calculateSimilarity` can push the
reported value above `1.0` (witnessed by the `1.2` counterexample). -/
theorem wake_confidence_bounds
    (sensitivity : ℚ) (variations : List (List Char)) (transcript : String) :
    0 ≤ (Wake.checkWakeWord sensitivity variations transcript).confidence ∧
    (Wake.checkWakeWord sensitivity variations transcript).confidence ≤ 13 / 10 := by
  unfold Wake.checkWakeWord
  by_cases hempty : (jsTrimChars (jsToLowerChars transcript.data)).isEmpty = true
  · simp only [hempty, if_true]
    norm_num
  · simp only [hempty, Bool.false_eq_true, if_false]
    rcases hfind : (variations.find?
        (fun v => Wake.matchWakeWord sensitivity
          (jsTrimChars (jsToLowerChars transcript.data)) v)) with _ | v
    · norm_num
    · exact calculateConfidence_bounds _ v

/-! ## C7 — conversation-memory trimming -/

namespace Mem

/-- The last (at most) `n` elements of a list. -/
def lastN (n : Nat) (l : List Msg) : List Msg := l.drop (l.length - n)

end Mem

/-- Taking the last `n` of a list, appending, and taking the last `n`
again is the same as taking the last `n` of the whole concatenation. -/
lemma lastN_append_lastN (n : Nat) (l r : List Mem.Msg) :
    Mem.lastN n (Mem.lastN n l ++ r) = Mem.lastN n (l ++ r) := by
  unfold Mem.lastN
  rcases le_or_lt l.length n with h | h
  · rw [Nat.sub_eq_zero_of_le h, List.drop_zero]
  · have hd : l.drop (l.length - n) ++ r = (l ++ r).drop (l.length - n) :=
      (List.drop_append_of_le_length (by omega)).symm
    rw [hd, List.drop_drop]
    congr 1
    simp only [List.length_drop, List.length_append]
    omega

/-- Filtering a suffix of already non-system messages: no system message
is found, and the non-system filter is the identity. -/
lemma filter_sys_of_nonSys (l : List Mem.Msg) (k : Nat) :
    (((l.filter (fun x => !(x.role == Mem.Role.sys))).drop k).filter
      (fun x => x.role == Mem.Role.sys)) = [] ∧
    (((l.filter (fun x => !(x.role == Mem.Role.sys))).drop k).filter
      (fun x => !(x.role == Mem.Role.sys))) =
      (l.filter (fun x => !(x.role == Mem.Role.sys))).drop k := by
  constructor
  · refine List.filter_eq_nil_iff.mpr ?_
    intro a ha
    have h2 : a ∈ l.filter (fun x => !(x.role == Mem.Role.sys)) :=
      List.mem_of_mem_drop ha
    have h1 := List.of_mem_filter h2
    simp only [Bool.not_eq_true'] at h1
    simp [h1]
  · refine List.filter_eq_self.mpr ?_
    intro a ha
    have h2 : a ∈ l.filter (fun x => !(x.role == Mem.Role.sys)) :=
      List.mem_of_mem_drop ha
    have h1 := List.of_mem_filter h2
    exact h1

/-- Filtering system messages: no non-system message is found, and the
system filter is the identity. -/
lemma filter_nonSys_of_sys (l : List Mem.Msg) :
    ((l.filter (fun x => x.role == Mem.Role.sys)).filter
      (fun x => !(x.role == Mem.Role.sys))) = [] ∧
    ((l.filter (fun x => x.role == Mem.Role.sys)).filter
      (fun x => x.role == Mem.Role.sys)) =
      l.filter (fun x => x.role == Mem.Role.sys) := by
  constructor
  · refine List.filter_eq_nil_iff.mpr ?_
    intro a ha
    have h1 := List.of_mem_filter ha
    simp only [beq_iff_eq] at h1
    simp [h1]
  · refine List.filter_eq_self.mpr ?_
    intro a ha
    have h1 := List.of_mem_filter ha
    exact h1

/-- What `trimMemory` does, seen through the system / non-system
projections: with a positive maximum, the non-system part becomes its
last `maxMessages` elements and the system part is untouched. -/
lemma trimMemory_spec (m : Mem.MemoryState) (hmax : 0 < m.maxMessages) :
    Mem.nonSystemOf (Mem.trimMemory m) =
      Mem.lastN m.maxMessages (Mem.nonSystemOf m) ∧
    Mem.systemOf (Mem.trimMemory m) = Mem.systemOf m ∧
    (Mem.trimMemory m).maxMessages = m.maxMessages := by
  have hslice : Mem.jsSliceLast
      (m.messages.filter (fun x => !(x.role == Mem.Role.sys))) m.maxMessages =
      Mem.lastN m.maxMessages (Mem.nonSystemOf m) := by
    unfold Mem.jsSliceLast Mem.lastN Mem.nonSystemOf
    rw [if_neg (Nat.pos_iff_ne_zero.mp hmax)]
  by_cases hlen :
      (m.messages.filter (fun x => !(x.role == Mem.Role.sys))).length > m.maxMessages
  · have htrim : Mem.trimMemory m =
        { m with messages :=
            (m.messages.filter (fun x => x.role == Mem.Role.sys) ++
              Mem.jsSliceLast
                (m.messages.filter (fun x => !(x.role == Mem.Role.sys)))
                m.maxMessages) } := by
      simp only [Mem.trimMemory]
      rw [if_pos hlen]
    rw [htrim]
    refine ⟨?_, ?_, rfl⟩
    · show (List.filter _ _) = _
      rw [hslice]
      unfold Mem.lastN Mem.nonSystemOf
      rw [List.filter_append, (filter_nonSys_of_sys m.messages).1,
        (filter_sys_of_nonSys m.messages _).2, List.nil_append]
    · show (List.filter _ _) = _
      rw [hslice]
      unfold Mem.lastN Mem.nonSystemOf Mem.systemOf
      rw [List.filter_append, (filter_nonSys_of_sys m.messages).2,
        (filter_sys_of_nonSys m.messages _).1, List.append_nil]
  · have htrim : Mem.trimMemory m = m := by
      simp only [Mem.trimMemory]
      rw [if_neg hlen]
    rw [htrim]
    have hle : (Mem.nonSystemOf m).length ≤ m.maxMessages := by
      unfold Mem.nonSystemOf
      omega
    unfold Mem.lastN
    rw [Nat.sub_eq_zero_of_le hle, List.drop_zero]
    exact ⟨rfl, rfl, rfl⟩

/-- Running the memory operations accumulates: the non-system part is
the sliding window of the last `maxMessages` appended non-system turns,
the system part stacks newest-first on top of what was there. -/
lemma foldl_applyOp_spec (maxMessages : Nat) (hmax : 0 < maxMessages) :
    ∀ (ops : List Mem.MemOp) (m : Mem.MemoryState),
      m.maxMessages = maxMessages →
      (Mem.nonSystemOf m).length ≤ maxMessages →
      Mem.nonSystemOf (ops.foldl Mem.applyOp m) =
        Mem.lastN maxMessages (Mem.nonSystemOf m ++ Mem.nonSystemTurns ops) ∧
      Mem.systemOf (ops.foldl Mem.applyOp m) =
        (Mem.systemTurns ops).reverse ++ Mem.systemOf m := by
  intro ops
  induction ops with
  | nil =>
    intro m hm hle
    have hfold : List.foldl Mem.applyOp m [] = m := rfl
    have ht1 : Mem.nonSystemTurns [] = [] := rfl
    have ht2 : Mem.systemTurns [] = [] := rfl
    rw [hfold, ht1, ht2, List.append_nil]
    constructor
    · unfold Mem.lastN
      rw [Nat.sub_eq_zero_of_le hle, List.drop_zero]
    · simp
  | cons op ops ih =>
    intro m hm hle
    have hstep : (op :: ops).foldl Mem.applyOp m = ops.foldl Mem.applyOp (Mem.applyOp m op) :=
      rfl
    rw [hstep]
    rcases op with c | c | c
    · -- addUser: push a user turn, then trim
      have hpush : Mem.nonSystemOf
            { m with messages := m.messages ++ [⟨Mem.Role.user, c⟩] } =
          Mem.nonSystemOf m ++ [⟨Mem.Role.user, c⟩] := by
        unfold Mem.nonSystemOf
        simp [List.filter_append]
      have hpushSys : Mem.systemOf
            { m with messages := m.messages ++ [⟨Mem.Role.user, c⟩] } =
          Mem.systemOf m := by
        unfold Mem.systemOf
        simp [List.filter_append]
      have happ : Mem.applyOp m (Mem.MemOp.addUser c) =
          Mem.trimMemory { m with messages := m.messages ++ [⟨Mem.Role.user, c⟩] } := rfl
      obtain ⟨ht1, ht2, ht3⟩ :=
        trimMemory_spec { m with messages := m.messages ++ [⟨Mem.Role.user, c⟩] }
          (by simpa using hm ▸ hmax)
      have hlen2 : (Mem.nonSystemOf (Mem.applyOp m (Mem.MemOp.addUser c))).length ≤
          maxMessages := by
        rw [happ, ht1]
        unfold Mem.lastN
        simp only [List.length_drop]
        omega
      obtain ⟨ih1, ih2⟩ := ih (Mem.applyOp m (Mem.MemOp.addUser c))
        (by rw [happ, ht3]; exact hm) hlen2
      have hturns : Mem.nonSystemTurns (Mem.MemOp.addUser c :: ops) =
          ⟨Mem.Role.user, c⟩ :: Mem.nonSystemTurns ops := rfl
      have hturnsSys : Mem.systemTurns (Mem.MemOp.addUser c :: ops) =
          Mem.systemTurns ops := rfl
      constructor
      · rw [ih1, happ, ht1, hpush, hm, lastN_append_lastN, hturns, List.append_assoc,
          List.singleton_append]
      · rw [ih2, happ, ht2, hpushSys, hturnsSys]
    · -- addAssistant: same shape as addUser
      have hpush : Mem.nonSystemOf
            { m with messages := m.messages ++ [⟨Mem.Role.assistant, c⟩] } =
          Mem.nonSystemOf m ++ [⟨Mem.Role.assistant, c⟩] := by
        unfold Mem.nonSystemOf
        simp [List.filter_append]
      have hpushSys : Mem.systemOf
            { m with messages := m.messages ++ [⟨Mem.Role.assistant, c⟩] } =
          Mem.systemOf m := by
        unfold Mem.systemOf
        simp [List.filter_append]
      have happ : Mem.applyOp m (Mem.MemOp.addAssistant c) =
          Mem.trimMemory { m with messages := m.messages ++ [⟨Mem.Role.assistant, c⟩] } :=
        rfl
      obtain ⟨ht1, ht2, ht3⟩ :=
        trimMemory_spec { m with messages := m.messages ++ [⟨Mem.Role.assistant, c⟩] }
          (by simpa using hm ▸ hmax)
      have hlen2 : (Mem.nonSystemOf (Mem.applyOp m (Mem.MemOp.addAssistant c))).length ≤
          maxMessages := by
        rw [happ, ht1]
        unfold Mem.lastN
        simp only [List.length_drop]
        omega
      obtain ⟨ih1, ih2⟩ := ih (Mem.applyOp m (Mem.MemOp.addAssistant c))
        (by rw [happ, ht3]; exact hm) hlen2
      have hturns : Mem.nonSystemTurns (Mem.MemOp.addAssistant c :: ops) =
          ⟨Mem.Role.assistant, c⟩ :: Mem.nonSystemTurns ops := rfl
      have hturnsSys : Mem.systemTurns (Mem.MemOp.addAssistant c :: ops) =
          Mem.systemTurns ops := rfl
      constructor
      · rw [ih1, happ, ht1, hpush, hm, lastN_append_lastN, hturns, List.append_assoc,
          List.singleton_append]
      · rw [ih2, happ, ht2, hpushSys, hturnsSys]
    · -- addSystem: unshift, no trim
      have happ : Mem.applyOp m (Mem.MemOp.addSystem c) =
          { m with messages := ⟨Mem.Role.sys, c⟩ :: m.messages } := rfl
      have hns : Mem.nonSystemOf { m with messages := ⟨Mem.Role.sys, c⟩ :: m.messages } =
          Mem.nonSystemOf m := by
        unfold Mem.nonSystemOf
        simp
      have hsys : Mem.systemOf { m with messages := ⟨Mem.Role.sys, c⟩ :: m.messages } =
          ⟨Mem.Role.sys, c⟩ :: Mem.systemOf m := by
        unfold Mem.systemOf
        simp
      obtain ⟨ih1, ih2⟩ := ih (Mem.applyOp m (Mem.MemOp.addSystem c))
        (by rw [happ]; exact hm) (by rw [happ, hns]; exact hle)
      have hturns : Mem.nonSystemTurns (Mem.MemOp.addSystem c :: ops) =
          Mem.nonSystemTurns ops := rfl
      have hturnsSys : Mem.systemTurns (Mem.MemOp.addSystem c :: ops) =
          ⟨Mem.Role.sys, c⟩ :: Mem.systemTurns ops := rfl
      constructor
      · rw [ih1, happ, hns, hturns]
      · rw [ih2, happ, hsys, hturnsSys]
        simp

/-- C7 counterexample: with the maximum configured as `0`, appending one
user turn exceeds the maximum, yet the memory retains that turn rather
than exactly `0` non-system turns — JS `slice(-0)` is `slice(0)` and
returns the whole array, so `trimMemory` keeps everything. -/
theorem memory_trim_maxZero_counterexample :
    (Mem.nonSystemTurns [Mem.MemOp.addUser "a"]).length > 0 ∧
    (Mem.nonSystemOf (Mem.runOps 0 [Mem.MemOp.addUser "a"])).length = 1 ∧
    ¬((Mem.nonSystemOf (Mem.runOps 0 [Mem.MemOp.addUser "a"])).length = 0) := by
  refine ⟨by decide, by decide, by decide⟩

/-- C7 (amended): for every positive configured maximum, appending
turns whose non-system count exceeds the maximum retains exactly
`maxMessages` non-system turns — the most recently appended ones, in
arrival order — and every system turn is preserved (newest first, as
`addSystemMessage` unshifts). With maximum `0` the JS `slice(-0)` quirk
retains everything instead. -/
theorem memory_trim_retains_window
    (maxMessages : Nat) (ops : List Mem.MemOp)
    (hmax : 0 < maxMessages)
    (hcount : (Mem.nonSystemTurns ops).length > maxMessages) :
    Mem.nonSystemOf (Mem.runOps maxMessages ops) =
      Mem.lastN maxMessages (Mem.nonSystemTurns ops) ∧
    (Mem.nonSystemOf (Mem.runOps maxMessages ops)).length = maxMessages ∧
    Mem.systemOf (Mem.runOps maxMessages ops) = (Mem.systemTurns ops).reverse := by
  have h0 : Mem.nonSystemOf (⟨[], maxMessages⟩ : Mem.MemoryState) = [] := rfl
  obtain ⟨h1, h2⟩ := foldl_applyOp_spec maxMessages hmax ops ⟨[], maxMessages⟩ rfl
    (by rw [h0]; exact Nat.zero_le _)
  have hrun : Mem.runOps maxMessages ops = ops.foldl Mem.applyOp ⟨[], maxMessages⟩ := rfl
  refine ⟨?_, ?_, ?_⟩
  · rw [hrun, h1, h0, List.nil_append]
  · rw [hrun, h1, h0, List.nil_append]
    unfold Mem.lastN
    simp only [List.length_drop]
    omega
  · rw [hrun, h2]
    have hsys0 : Mem.systemOf (⟨[], maxMessages⟩ : Mem.MemoryState) = [] := rfl
    rw [hsys0, List.append_nil]

/-- C7 witness: maximum `1`, two user turns and one system turn — the
memory keeps the later user turn and the system turn. -/
theorem memory_trim_retains_window_witness :
    Mem.nonSystemOf (Mem.runOps 1
        [Mem.MemOp.addUser "a", Mem.MemOp.addSystem "s", Mem.MemOp.addUser "b"]) =
      Mem.lastN 1 (Mem.nonSystemTurns
        [Mem.MemOp.addUser "a", Mem.MemOp.addSystem "s", Mem.MemOp.addUser "b"]) ∧
    (Mem.nonSystemOf (Mem.runOps 1
        [Mem.MemOp.addUser "a", Mem.MemOp.addSystem "s", Mem.MemOp.addUser "b"])).length = 1 ∧
    Mem.systemOf (Mem.runOps 1
        [Mem.MemOp.addUser "a", Mem.MemOp.addSystem "s", Mem.MemOp.addUser "b"]) =
      (Mem.systemTurns
        [Mem.MemOp.addUser "a", Mem.MemOp.addSystem "s", Mem.MemOp.addUser "b"]).reverse :=
  memory_trim_retains_window 1
    [Mem.MemOp.addUser "a", Mem.MemOp.addSystem "s", Mem.MemOp.addUser "b"]
    (by decide) (by decide)

end Jarvis
